import Mathlib

/- Shallow embedding of the tordesc Tor server-descriptor parser
   (src/document.rs, src/grammar.rs, src/server_descriptor/mod.rs,
   src/server_descriptor/exit_policy.rs).

   The Rust code is written against the nom parser-combinator library
   (the 1.x era API: named!/chain!/alt!/opt!/many0!/many1!/tag!,
   three-valued results Done/Error/Incomplete).  We model input as a
   list of characters and reproduce the combinator semantics of that
   nom generation:

   - tag: compares the common prefix; a mismatch is Error, a matching
     prefix that is shorter than the tag is Incomplete;
   - the character-class primitives (alphanumeric, digit, hex_digit,
     space) are Incomplete on empty input, Error if the first character
     does not match, otherwise consume the maximal matching run and
     return Done (also at end of input);
   - not_line_ending always succeeds, splitting at the first CR/LF;
   - alt! tries alternatives in order, propagating Incomplete;
     alt_complete! converts Incomplete alternatives to Error first;
   - opt! maps Error to a non-consuming success and propagates
     Incomplete;
   - many0!/many1! loop while the inner parser makes progress, stop on
     Error (keeping what was accumulated), and propagate Incomplete.
     The loops in nom always terminate because each accepted iteration
     consumes input (nom breaks the loop on a non-consuming success);
     we realize this with a fuel argument that is large enough by
     construction and a progress check on each iteration.

   Error positions/kinds and the byte counts inside Incomplete are not
   observed by any code under verification (the library maps any Error
   to ParseError 1 and any Incomplete to ParseError 2), so Needed
   payloads are propagated unchanged rather than re-totalled. -/

namespace Tordesc

/-- Payload of nom's Incomplete result. -/
inductive Needed : Type
| unknown : Needed
| size : Nat → Needed
deriving DecidableEq, Repr

/-- nom's IResult: remaining input plus value, a parse error, or a request
for more input. -/
inductive NomResult (α : Type) : Type
| done (rest : List Char) (val : α) : NomResult α
| error : NomResult α
| incomplete (n : Needed) : NomResult α
deriving DecidableEq, Repr

/-- True exactly on a successful parse. -/
def NomResult.isDone {α : Type} : NomResult α → Bool
| .done _ _ => true
| _ => false

abbrev NomParser (α : Type) : Type := List Char → NomResult α

/-- Characters of a string literal. -/
def strL (s : String) : List Char := s.data

/-- Monadic sequencing of parsers (nom's chain!). -/
def nbind {α β : Type} (p : NomParser α) (f : α → NomParser β) : NomParser β := fun i =>
  match p i with
  | .done rest a => f a rest
  | .error => .error
  | .incomplete n => .incomplete n

def npure {α : Type} (a : α) : NomParser α := fun i => .done i a

instance : Monad NomParser where
  pure := npure
  bind := nbind

/-- nom's map!. -/
def nmap {α β : Type} (p : NomParser α) (f : α → β) : NomParser β :=
  nbind p (fun a => npure (f a))

/-- nom's map_res!: the mapped function may fail, failure becomes Error. -/
def nmap_res {α β : Type} (p : NomParser α) (f : α → Option β) : NomParser β := fun i =>
  match p i with
  | .done rest a =>
    match f a with
    | some b => .done rest b
    | none => .error
  | .error => .error
  | .incomplete n => .incomplete n

/-- nom's tag!: match a literal, Incomplete when the input is a proper
matching prefix of the literal. -/
def tag (t : List Char) : NomParser (List Char) := fun i =>
  let m := min t.length i.length
  if i.take m = t.take m then
    if i.length < t.length then .incomplete (.size t.length)
    else .done (i.drop t.length) t
  else .error

/-- nom's alt! with two alternatives: Error falls through, Incomplete is
propagated. -/
def alt2 {α : Type} (p q : NomParser α) : NomParser α := fun i =>
  match p i with
  | .error => q i
  | r => r

/-- nom's complete!: turn Incomplete into Error. -/
def complete {α : Type} (p : NomParser α) : NomParser α := fun i =>
  match p i with
  | .incomplete _ => .error
  | r => r

/-- nom's opt!: failure becomes a non-consuming None, Incomplete is
propagated. -/
def opt {α : Type} (p : NomParser α) : NomParser (Option α) := fun i =>
  match p i with
  | .done rest a => .done rest (some a)
  | .error => .done i none
  | .incomplete n => .incomplete n

/-- Body of nom's many0!/many1! loop: keep applying the parser while it
succeeds and consumes input; Error ends the loop keeping the
accumulator, Incomplete is propagated.  The fuel argument only serves
termination: callers pass more fuel than the input length, and every
iteration consumes at least one character, so the fuel never runs out. -/
def manyLoop {α : Type} (f : NomParser α) : Nat → List Char → List α → NomResult (List α)
| 0, input, acc => .done input acc.reverse
| fuel + 1, input, acc =>
  if input.isEmpty then .done input acc.reverse
  else
    match f input with
    | .error => .done input acc.reverse
    | .incomplete n => .incomplete n
    | .done i o =>
      if i.length < input.length then manyLoop f fuel i (o :: acc)
      else .done input acc.reverse

/-- nom's many0!. -/
def many0 {α : Type} (f : NomParser α) : NomParser (List α) := fun i =>
  manyLoop f (i.length + 1) i []

/-- nom's many1!: at least one element; an Error or Incomplete on the very
first element is the parser's own failure. -/
def many1 {α : Type} (f : NomParser α) : NomParser (List α) := fun i =>
  match f i with
  | .error => .error
  | .incomplete n => .incomplete n
  | .done i1 o1 => manyLoop f (i1.length + 1) i1 [o1]

/-- nom's recognize!: run the parser and return the consumed input slice. -/
def recognize {α : Type} (p : NomParser α) : NomParser (List Char) := fun i =>
  match p i with
  | .done rest _ => .done rest (i.take (i.length - rest.length))
  | .error => .error
  | .incomplete n => .incomplete n

/-- Apply a character-class primitive: Incomplete on empty input, Error if
the first character does not match, otherwise the maximal matching run. -/
def char_class (p : Char → Bool) : NomParser (List Char) := fun i =>
  match i with
  | [] => .incomplete (.size 1)
  | c :: _ =>
    if p c then .done (i.dropWhile p) (i.takeWhile p)
    else .error

def is_alphanumeric_char (c : Char) : Bool := c.isAlphanum

def is_digit_char (c : Char) : Bool := c.isDigit

def is_hex_digit_char (c : Char) : Bool :=
  c.isDigit || (('a' ≤ c) && (c ≤ 'f')) || (('A' ≤ c) && (c ≤ 'F'))

def is_space_char (c : Char) : Bool := (c == ' ') || (c == '\t')

def is_line_ending_char (c : Char) : Bool := (c == '\n') || (c == '\r')

/-- nom's alphanumeric. -/
def alphanumeric : NomParser (List Char) := char_class is_alphanumeric_char

/-- nom's digit. -/
def digit : NomParser (List Char) := char_class is_digit_char

/-- nom's hex_digit. -/
def hex_digit : NomParser (List Char) := char_class is_hex_digit_char

/-- nom's space: a run of ASCII space/tab. -/
def space : NomParser (List Char) := char_class is_space_char

/-- nom's not_line_ending: everything up to the first CR/LF (possibly
nothing); always succeeds. -/
def not_line_ending : NomParser (List Char) := fun i =>
  .done (i.dropWhile (fun c => !is_line_ending_char c))
        (i.takeWhile (fun c => !is_line_ending_char c))

/-- nom's line_ending: CRLF or LF. -/
def line_ending : NomParser (List Char) :=
  alt2 (tag (strL ("\r\n"))) (tag (strL ("\n")))

/- ===== src/grammar.rs ===== -/

/-- Numeric value of a decimal digit run. -/
def decimal_value (s : List Char) : Nat :=
  s.foldl (fun acc c => acc * 10 + (c.toNat - ('0').toNat)) 0

/-- Rust's u8::from_str on a digit run: fails on empty input, non-digits,
or overflow. -/
def u8_from_str (s : List Char) : Option Nat :=
  if s ≠ [] ∧ s.all is_digit_char ∧ decimal_value s ≤ 255 then some (decimal_value s) else none

/-- Rust's u16::from_str on a digit run. -/
def u16_from_str (s : List Char) : Option Nat :=
  if s ≠ [] ∧ s.all is_digit_char ∧ decimal_value s ≤ 65535 then some (decimal_value s) else none

/-- Rust's u64::from_str on a digit run. -/
def u64_from_str (s : List Char) : Option Nat :=
  if s ≠ [] ∧ s.all is_digit_char ∧ decimal_value s ≤ 18446744073709551615 then
    some (decimal_value s)
  else none

/-- named! u8_digit: decimal digits parsed as a u8
(map_res!(map_res!(digit, from_utf8), FromStr::from_str)). -/
def u8_digit : NomParser Nat := nmap_res digit u8_from_str

/-- named! u16_digit. -/
def u16_digit : NomParser Nat := nmap_res digit u16_from_str

/-- named! u64_digit. -/
def u64_digit : NomParser Nat := nmap_res digit u64_from_str

/-- std::net::Ipv4Addr as four octets (each 0..=255 by construction via
u8_digit). -/
structure Ipv4Addr : Type where
  a : Nat
  b : Nat
  c : Nat
  d : Nat
deriving DecidableEq, Repr

/-- named! ipv4_addr: dotted quad built from u8_digit and literal dots. -/
def ipv4_addr : NomParser Ipv4Addr := do
  let a ← u8_digit
  let _ ← tag (strL ("."))
  let b ← u8_digit
  let _ ← tag (strL ("."))
  let c ← u8_digit
  let _ ← tag (strL ("."))
  let d ← u8_digit
  pure (Ipv4Addr.mk a b c d)

/- ===== src/document.rs ===== -/

/-- One Item of the document meta-format.  document.rs stores the
optional trailing armored object of an Item (`obj: Option<&str>`,
the grammar accepts at most one object per Item); the dispatcher in
server_descriptor/mod.rs addresses the same slot as a vector `objs`
of length at most one (`objs.len()`, `objs[0]`).  We model the common
representation as the list of associated objects, which the document
grammar only ever fills with zero or one element. -/
structure Item : Type where
  key : String
  args : Option String
  objs : List String
deriving DecidableEq, Repr

/-- KeywordLine of document.rs: keyword plus optional raw argument text. -/
structure KeywordLine : Type where
  key : String
  args : Option String
deriving DecidableEq, Repr

/-- named! keyword_char: alt!(alphanumeric | tag!("-")). -/
def keyword_char : NomParser (List Char) :=
  alt2 alphanumeric (tag (strL ("-")))

/-- named! keyword: recognize!(many1!(keyword_char)). -/
def keyword : NomParser (List Char) :=
  recognize (many1 keyword_char)

/-- named! keyword_args: chain!(space ~ args: not_line_ending, || args). -/
def keyword_args : NomParser (List Char) := do
  let _ ← space
  let args ← not_line_ending
  pure args

/-- named! keyword_line: keyword, optional argument text, line terminator. -/
def keyword_line : NomParser KeywordLine := do
  let key ← keyword
  let args ← opt keyword_args
  let _ ← line_ending
  pure (KeywordLine.mk (String.mk key) (args.map String.mk))

/-- named! object_char: alt!(alphanumeric | space). -/
def object_char : NomParser (List Char) :=
  alt2 alphanumeric space

/-- named! object_type: recognize!(many1!(object_char)). -/
def object_type : NomParser (List Char) :=
  recognize (many1 object_char)

/-- named! object_beginline: "-----BEGIN " object_type "-----" NL. -/
def object_beginline : NomParser (List Char) :=
  recognize (do
    let _ ← tag (strL ("-----BEGIN "))
    let _ ← object_type
    let _ ← tag (strL ("-----"))
    let _ ← line_ending
    pure ())

/-- named! object_endline: "-----END " object_type "-----" NL.  Note that
the end line's type token is parsed independently; the implementation
never compares it with the begin line's type token. -/
def object_endline : NomParser (List Char) :=
  recognize (do
    let _ ← tag (strL ("-----END "))
    let _ ← object_type
    let _ ← tag (strL ("-----"))
    let _ ← line_ending
    pure ())

/-- named! base64_char: alt!(alphanumeric | tag!("/") | tag!("+") | tag!("=")). -/
def base64_char : NomParser (List Char) :=
  alt2 alphanumeric (alt2 (tag (strL ("/"))) (alt2 (tag (strL ("+"))) (tag (strL ("=")))))

/-- named! base64_encoding: recognize!(many1!(alt!(base64_char | line_ending))). -/
def base64_encoding : NomParser (List Char) :=
  recognize (many1 (alt2 base64_char line_ending))

/-- named! object: recognize!(chain!(object_beginline ~ base64_encoding ~
object_endline)). -/
def object : NomParser (List Char) :=
  recognize (do
    let _ ← object_beginline
    let _ ← base64_encoding
    let _ ← object_endline
    pure ())

/-- named! item: a keyword line with an optional armored object
(map_res!(object, str::from_utf8) keeps the whole block as text). -/
def item : NomParser Item := do
  let kl ← keyword_line
  let obj ← opt (nmap object String.mk)
  pure (Item.mk kl.key kl.args (match obj with | some o => [o] | none => []))

/- ===== src/server_descriptor/exit_policy.rs ===== -/

/-- Whether the pattern accepts or rejects traffic. -/
inductive Rule : Type
| Accept : Rule
| Reject : Rule
deriving DecidableEq, Repr

/-- Ipv4Spec: bare address, CIDR, or mask form.  The CIDR prefix length
field is named `prefix` in the Rust source; `prefix` is a reserved
keyword in Lean, so the field is called prefixLen here. -/
inductive Ipv4Spec : Type
| Addr (addr : Ipv4Addr) : Ipv4Spec
| CIDR (addr : Ipv4Addr) (prefixLen : Nat) : Ipv4Spec
| Mask (addr : Ipv4Addr) (mask : Ipv4Addr) : Ipv4Spec
deriving DecidableEq, Repr

/-- std::net::Ipv6Addr as eight 16-bit groups. -/
structure Ipv6Addr : Type where
  a : Nat
  b : Nat
  c : Nat
  d : Nat
  e : Nat
  f : Nat
  g : Nat
  h : Nat
deriving DecidableEq, Repr

/-- Ipv6Spec: bare address or CIDR. -/
inductive Ipv6Spec : Type
| Addr (addr : Ipv6Addr) : Ipv6Spec
| CIDR (addr : Ipv6Addr) (prefixLen : Nat) : Ipv6Spec
deriving DecidableEq, Repr

/-- AddrSpec: wildcard, IPv4 or IPv6 specification. -/
inductive AddrSpec : Type
| Wildcard : AddrSpec
| Ipv4 (s : Ipv4Spec) : AddrSpec
| Ipv6 (s : Ipv6Spec) : AddrSpec
deriving DecidableEq, Repr

/-- PortSpec: wildcard, single port, or half-open range
(std::ops::Range, exclusive upper bound). -/
inductive PortSpec : Type
| Wildcard : PortSpec
| Port (p : Nat) : PortSpec
| Range (start : Nat) (stop : Nat) : PortSpec
deriving DecidableEq, Repr

/-- A single exit-policy directive. -/
structure ExitPattern : Type where
  rule : Rule
  addr : AddrSpec
  port : PortSpec
deriving DecidableEq, Repr

/-- ExitPolicy: an order-sensitive sequence of patterns. -/
abbrev ExitPolicy : Type := List ExitPattern

/-- named! ipv4_spec_addr. -/
def ipv4_spec_addr : NomParser Ipv4Spec :=
  nmap ipv4_addr (fun x => Ipv4Spec.Addr x)

/-- named! ipv4_numbits: call!(u8_digit) — the source carries a
TODO to verify the value is in range 0..32 but performs no range check. -/
def ipv4_numbits : NomParser Nat := u8_digit

/-- named! ipv4_spec_cidr. -/
def ipv4_spec_cidr : NomParser Ipv4Spec := do
  let addr ← ipv4_addr
  let _ ← tag (strL ("/"))
  let bits ← ipv4_numbits
  pure (Ipv4Spec.CIDR addr bits)

/-- named! ipv4_spec: alt!(ipv4_spec_cidr | ipv4_spec_addr). -/
def ipv4_spec : NomParser Ipv4Spec :=
  alt2 ipv4_spec_cidr ipv4_spec_addr

/-- Rust's u16::from_str_radix(h, 16) on a hex-digit run. -/
def hex_char_value (c : Char) : Nat :=
  if c.isDigit then c.toNat - ('0').toNat
  else if ('a' ≤ c) && (c ≤ 'f') then c.toNat - ('a').toNat + 10
  else c.toNat - ('A').toNat + 10

def hex_value (s : List Char) : Nat :=
  s.foldl (fun acc c => acc * 16 + hex_char_value c) 0

def u16_from_str_radix16 (s : List Char) : Option Nat :=
  if s ≠ [] ∧ s.all is_hex_digit_char ∧ hex_value s ≤ 65535 then some (hex_value s) else none

/-- named! u16_hex_digit. -/
def u16_hex_digit : NomParser Nat := nmap_res hex_digit u16_from_str_radix16

/-- named! ipv6_addr: exactly eight colon-separated 16-bit hex groups in
square brackets (no :: compression, as the source notes). -/
def ipv6_addr : NomParser Ipv6Addr := do
  let _ ← tag (strL ("["))
  let a ← u16_hex_digit
  let _ ← tag (strL (":"))
  let b ← u16_hex_digit
  let _ ← tag (strL (":"))
  let c ← u16_hex_digit
  let _ ← tag (strL (":"))
  let d ← u16_hex_digit
  let _ ← tag (strL (":"))
  let e ← u16_hex_digit
  let _ ← tag (strL (":"))
  let f ← u16_hex_digit
  let _ ← tag (strL (":"))
  let g ← u16_hex_digit
  let _ ← tag (strL (":"))
  let h ← u16_hex_digit
  let _ ← tag (strL ("]"))
  pure (Ipv6Addr.mk a b c d e f g h)

/-- named! ipv6_numbits: call!(u8_digit) — TODO range check 0..128 absent
in the source. -/
def ipv6_numbits : NomParser Nat := u8_digit

/-- named! ipv6_spec_addr. -/
def ipv6_spec_addr : NomParser Ipv6Spec :=
  nmap ipv6_addr (fun x => Ipv6Spec.Addr x)

/-- named! ipv6_spec_cidr. -/
def ipv6_spec_cidr : NomParser Ipv6Spec := do
  let addr ← ipv6_addr
  let _ ← tag (strL ("/"))
  let bits ← ipv6_numbits
  pure (Ipv6Spec.CIDR addr bits)

/-- named! ipv6_spec: alt!(ipv6_spec_cidr | ipv6_spec_addr). -/
def ipv6_spec : NomParser Ipv6Spec :=
  alt2 ipv6_spec_cidr ipv6_spec_addr

/-- named! addr_spec: wildcard, then IPv4 forms, then IPv6 forms. -/
def addr_spec : NomParser AddrSpec :=
  alt2 (nmap (tag (strL ("*"))) (fun _ => AddrSpec.Wildcard))
    (alt2 (nmap ipv4_spec (fun x => AddrSpec.Ipv4 x))
      (nmap ipv6_spec (fun x => AddrSpec.Ipv6 x)))

/-- named! port_spec_range: start '-' end, with the half-open
std::ops::Range representation. -/
def port_spec_range : NomParser PortSpec := do
  let start ← u16_digit
  let _ ← tag (strL ("-"))
  let stop ← u16_digit
  pure (PortSpec.Range start stop)

/-- named! port_spec_port. -/
def port_spec_port : NomParser PortSpec :=
  nmap u16_digit (fun d => PortSpec.Port d)

/-- named! port_spec: alt_complete!(range | port | "*"). -/
def port_spec : NomParser PortSpec :=
  alt2 (complete port_spec_range)
    (alt2 (complete port_spec_port)
      (complete (nmap (tag (strL ("*"))) (fun _ => PortSpec.Wildcard))))

/-- named! exit_pattern: addr_spec ':' port_spec. -/
def exit_pattern : NomParser (AddrSpec × PortSpec) := do
  let a ← addr_spec
  let _ ← tag (strL (":"))
  let p ← port_spec
  pure (a, p)

/-- pub fn parse_exit_pattern. -/
def parse_exit_pattern : NomParser (AddrSpec × PortSpec) := exit_pattern

/- ===== src/server_descriptor/mod.rs ===== -/

/-- Common data from a parsed server descriptor (struct ServerDescriptor). -/
structure ServerDescriptor : Type where
  nickname : String
  address : Option Ipv4Addr
  or_port : Nat
  socks_port : Nat
  dir_port : Nat
  identity_ed25519 : Option String
  master_key_ed25519 : Option String
  platform : Option String
  protocols : Option String
  published : Option String
  fingerprint : Option String
  uptime : Option Nat
  bandwidth_avg : Nat
  bandwidth_burst : Nat
  bandwidth_observed : Nat
  extra_info_digest : Option String
  onion_key : Option String
  signing_key : Option String
  hidden_service_dir : Option String
  contact : Option String
  ntor_onion_key : Option String
  router_sig_ed25519 : Option String
  router_signature : Option String
  exit_policy : ExitPolicy
  unprocessed_items : List Item
deriving DecidableEq, Repr

/-- Default::default() for ServerDescriptor: empty string slice, zeroes,
None everywhere, empty vectors. -/
def ServerDescriptor.default : ServerDescriptor where
  nickname := ""
  address := none
  or_port := 0
  socks_port := 0
  dir_port := 0
  identity_ed25519 := none
  master_key_ed25519 := none
  platform := none
  protocols := none
  published := none
  fingerprint := none
  uptime := none
  bandwidth_avg := 0
  bandwidth_burst := 0
  bandwidth_observed := 0
  extra_info_digest := none
  onion_key := none
  signing_key := none
  hidden_service_dir := none
  contact := none
  ntor_onion_key := none
  router_sig_ed25519 := none
  router_signature := none
  exit_policy := []
  unprocessed_items := []

/-- named! router: nickname, IPv4 address, ORPort, SOCKSPort, DirPort. -/
def router : NomParser (String × Ipv4Addr × Nat × Nat × Nat) := do
  let nickname ← nmap alphanumeric String.mk
  let _ ← space
  let address ← ipv4_addr
  let _ ← space
  let or_port ← u16_digit
  let _ ← space
  let socks_port ← u16_digit
  let _ ← space
  let dir_port ← u16_digit
  pure (nickname, address, or_port, socks_port, dir_port)

/-- named! bandwidth: three u64 values. -/
def bandwidth : NomParser (Nat × Nat × Nat) := do
  let avg ← u64_digit
  let _ ← space
  let bur ← u64_digit
  let _ ← space
  let obs ← u64_digit
  pure (avg, bur, obs)

/-- named! uptime: call!(u64_digit). -/
def uptime : NomParser Nat := u64_digit

/-- macro_rules! singleton_arg: store the single required argument in a
field, otherwise push the Item to unprocessed_items. -/
def singleton_arg (sd : ServerDescriptor) (it : Item)
    (set : ServerDescriptor → String → ServerDescriptor) : ServerDescriptor :=
  match it.args, it.objs.length with
  | some args, 0 => set sd args
  | _, _ => { sd with unprocessed_items := sd.unprocessed_items ++ [it] }

/-- macro_rules! first_obj: store the single object of an Item carrying
no arguments, otherwise push the Item to unprocessed_items. -/
def first_obj (sd : ServerDescriptor) (it : Item)
    (set : ServerDescriptor → String → ServerDescriptor) : ServerDescriptor :=
  match it.args, it.objs with
  | none, [o] => set sd o
  | _, _ => { sd with unprocessed_items := sd.unprocessed_items ++ [it] }

/-- macro_rules! use_parser_arm: run a nom parser on the argument text and hand
a successful result to the handler; on absent arguments or any parse
failure push the Item to unprocessed_items. -/
def use_parser_arm {α : Type} (sd : ServerDescriptor) (it : Item)
    (p : NomParser α) (handler : ServerDescriptor → α → ServerDescriptor) : ServerDescriptor :=
  match it.args with
  | some args =>
    match p args.data with
    | .done _ res => handler sd res
    | _ => { sd with unprocessed_items := sd.unprocessed_items ++ [it] }
  | none => { sd with unprocessed_items := sd.unprocessed_items ++ [it] }

/-- Body of transmogrify's loop: route one Item by keyword.  The Rust
match on string literals is rendered as the equivalent chain of string
comparisons, in source order; the "accept" | "reject" arm is split into
its two cases with the rule resolved directly (the inner match's
unreachable! arm cannot fire). -/
def transmogrify_step (sd : ServerDescriptor) (it : Item) : ServerDescriptor :=
  if it.key = "platform" then
    singleton_arg sd it (fun s v => { s with platform := some v })
  else if it.key = "identity-ed25519" then
    first_obj sd it (fun s v => { s with identity_ed25519 := some v })
  else if it.key = "master-key-ed25519" then
    singleton_arg sd it (fun s v => { s with master_key_ed25519 := some v })
  else if it.key = "protocols" then
    singleton_arg sd it (fun s v => { s with protocols := some v })
  else if it.key = "fingerprint" then
    singleton_arg sd it (fun s v => { s with fingerprint := some v })
  else if it.key = "published" then
    singleton_arg sd it (fun s v => { s with published := some v })
  else if it.key = "extra-info-digest" then
    singleton_arg sd it (fun s v => { s with extra_info_digest := some v })
  else if it.key = "onion-key" then
    first_obj sd it (fun s v => { s with onion_key := some v })
  else if it.key = "signing-key" then
    first_obj sd it (fun s v => { s with signing_key := some v })
  else if it.key = "contact" then
    singleton_arg sd it (fun s v => { s with contact := some v })
  else if it.key = "ntor-onion-key" then
    singleton_arg sd it (fun s v => { s with ntor_onion_key := some v })
  else if it.key = "router-sig-ed25519" then
    singleton_arg sd it (fun s v => { s with router_sig_ed25519 := some v })
  else if it.key = "router-signature" then
    first_obj sd it (fun s v => { s with router_signature := some v })
  else if it.key = "router" then
    use_parser_arm sd it router (fun s r =>
      match r with
      | (nickname, address, or_port, socks_port, dir_port) =>
        { s with nickname := nickname, address := some address,
                 or_port := or_port, socks_port := socks_port, dir_port := dir_port })
  else if it.key = "bandwidth" then
    use_parser_arm sd it bandwidth (fun s r =>
      match r with
      | (avg, bur, obs) =>
        { s with bandwidth_avg := avg, bandwidth_burst := bur, bandwidth_observed := obs })
  else if it.key = "uptime" then
    use_parser_arm sd it uptime (fun s r => { s with uptime := some r })
  else if it.key = "hidden-service-dir" then
    { sd with hidden_service_dir := it.args }
  else if it.key = "accept" then
    use_parser_arm sd it parse_exit_pattern (fun s ap =>
      { s with exit_policy := s.exit_policy ++ [ExitPattern.mk Rule.Accept ap.1 ap.2] })
  else if it.key = "reject" then
    use_parser_arm sd it parse_exit_pattern (fun s ap =>
      { s with exit_policy := s.exit_policy ++ [ExitPattern.mk Rule.Reject ap.1 ap.2] })
  else
    { sd with unprocessed_items := sd.unprocessed_items ++ [it] }

/-- fn transmogrify: fold the dispatcher over the bucket, starting from the
default record. -/
def transmogrify (item_bucket : List Item) : ServerDescriptor :=
  item_bucket.foldl transmogrify_step ServerDescriptor.default

/-- named! server_descriptor_bucket: the "@type server-descriptor 1.0"
framing line, a line terminator, then one-or-more Items. -/
def server_descriptor_bucket : NomParser (List Item) := do
  let _ ← tag (strL ("@type server-descriptor 1.0"))
  let _ ← line_ending
  let items ← many1 item
  pure items

/-- named! server_descriptor_bucket_aggregator: many0!(server_descriptor_bucket). -/
def server_descriptor_bucket_aggregator : NomParser (List (List Item)) :=
  many0 server_descriptor_bucket

/-- fn extract_all_item_buckets: every non-Done aggregation result collapses
to an empty vector. -/
def extract_all_item_buckets (input : String) : List (List Item) :=
  match server_descriptor_bucket_aggregator input.data with
  | .done _ sda => sda
  | _ => []

/-- type ParseError = u32. -/
abbrev ParseError : Type := Nat

/-- pub fn parse: Err(1) on a nom Error, Err(2) on a nom Incomplete. -/
def parse (input : String) : Except ParseError ServerDescriptor :=
  match server_descriptor_bucket input.data with
  | .done _ sd => .ok (transmogrify sd)
  | .error => .error 1
  | .incomplete _ => .error 2

/-- pub fn parse_all. -/
def parse_all (input : String) : List ServerDescriptor :=
  (extract_all_item_buckets input).map transmogrify

/- ===== helper lemmas ===== -/

theorem takeWhile_all_append_cons (p : Char → Bool) (l1 : List Char) (c : Char) (l2 : List Char)
    (h1 : ∀ x ∈ l1, p x = true) (hc : p c = false) :
    (l1 ++ c :: l2).takeWhile p = l1 := by
  induction l1 with
  | nil => simp [List.takeWhile_cons, hc]
  | cons a l ih =>
    have ha : p a = true := h1 a (by simp)
    rw [List.cons_append, List.takeWhile_cons, if_pos ha,
        ih (fun x hx => h1 x (by simp [hx]))]

theorem dropWhile_all_append_cons (p : Char → Bool) (l1 : List Char) (c : Char) (l2 : List Char)
    (h1 : ∀ x ∈ l1, p x = true) (hc : p c = false) :
    (l1 ++ c :: l2).dropWhile p = c :: l2 := by
  induction l1 with
  | nil => simp [List.dropWhile_cons, hc]
  | cons a l ih =>
    have ha : p a = true := h1 a (by simp)
    rw [List.cons_append, List.dropWhile_cons, if_pos ha]
    exact ih (fun x hx => h1 x (by simp [hx]))

theorem tag_done_iff (t i r v : List Char) :
    tag t i = .done r v ↔ v = t ∧ i = t ++ r := by
  unfold tag
  by_cases h1 : i.take (min t.length i.length) = t.take (min t.length i.length)
  · by_cases h2 : i.length < t.length
    · simp only [h1, if_true, h2, if_true]
      constructor
      · intro h; cases h
      · rintro ⟨hv, hi⟩
        subst hi
        exfalso
        rw [List.length_append] at h2
        omega
    · simp only [h1, if_true, h2, if_false]
      have hlen : t.length ≤ i.length := Nat.le_of_not_lt h2
      have hmin : min t.length i.length = t.length := Nat.min_eq_left hlen
      rw [hmin] at h1
      rw [List.take_length] at h1
      constructor
      · intro h
        cases h
        refine ⟨rfl, ?_⟩
        conv_lhs => rw [← List.take_append_drop t.length i]
        rw [h1]
      · rintro ⟨hv, hi⟩
        subst hv hi
        congr 1
        rw [List.drop_left]
  · simp only [h1, if_false]
    constructor
    · intro h; cases h
    · rintro ⟨hv, hi⟩
      subst hi
      exfalso
      apply h1
      have hmin : min t.length (t ++ r).length ≤ t.length := Nat.min_le_left _ _
      rw [List.take_append_of_le_length hmin]

theorem tag_error_of_head_ne (c c' : Char) (t i : List Char) (h : ¬(c' = c)) :
    tag (c :: t) (c' :: i) = .error := by
  unfold tag
  have hmin : min (c :: t).length (c' :: i).length = (min t.length i.length) + 1 := by
    simp [Nat.succ_min_succ]
  rw [hmin]
  simp only [List.take_succ_cons]
  rw [if_neg]
  intro hcontra
  exact h (List.cons.injEq .. ▸ hcontra).1

theorem line_ending_done_iff (i r v : List Char) :
    line_ending i = .done r v ↔
      (v = strL ("\r\n") ∨ v = strL ("\n")) ∧ i = v ++ r := by
  unfold line_ending alt2
  cases htag : tag (strL ("\r\n")) i with
  | done r1 v1 =>
    obtain ⟨hv1, hi⟩ := (tag_done_iff _ _ _ _).mp htag
    subst hv1
    subst hi
    show NomResult.done r1 (strL ("\r\n")) = .done r v ↔ _
    constructor
    · intro h
      cases h
      exact ⟨Or.inl rfl, rfl⟩
    · rintro ⟨hv | hv, hi⟩
      · subst hv
        obtain rfl : r1 = r := List.append_cancel_left hi
        rfl
      · subst hv
        exfalso
        have hi' : ('\r') :: ('\n') :: r1 = ('\n') :: r := hi
        injection hi' with h1 _
        exact absurd h1 (by decide)
  | error =>
    show tag (strL ("\n")) i = .done r v ↔ _
    constructor
    · intro h
      obtain ⟨hv, hi⟩ := (tag_done_iff _ _ _ _).mp h
      subst hv
      exact ⟨Or.inr rfl, hi⟩
    · rintro ⟨hv | hv, hi⟩
      · subst hv
        subst hi
        have hd : tag (strL ("\r\n")) (strL ("\r\n") ++ r) = .done r (strL ("\r\n")) :=
          (tag_done_iff _ _ _ _).mpr ⟨rfl, rfl⟩
        rw [htag] at hd
        cases hd
      · subst hv
        subst hi
        exact (tag_done_iff _ _ _ _).mpr ⟨rfl, rfl⟩
  | incomplete n =>
    show NomResult.incomplete n = .done r v ↔ _
    constructor
    · intro h; cases h
    · rintro ⟨hv | hv, hi⟩
      · subst hv
        subst hi
        have hd : tag (strL ("\r\n")) (strL ("\r\n") ++ r) = .done r (strL ("\r\n")) :=
          (tag_done_iff _ _ _ _).mpr ⟨rfl, rfl⟩
        rw [htag] at hd
        cases hd
      · subst hv
        subst hi
        have herr : tag (strL ("\r\n")) (('\n') :: r) = .error :=
          tag_error_of_head_ne ('\r') ('\n') (('\n') :: []) r (by decide)
        rw [show strL ("\n") ++ r = ('\n') :: r from rfl] at htag
        rw [herr] at htag
        cases htag

theorem manyLoop_acc {α : Type} (f : NomParser α) :
    ∀ (fuel : Nat) (input : List Char) (acc : List α),
      manyLoop f fuel input acc =
        match manyLoop f fuel input [] with
        | .done r l => .done r (acc.reverse ++ l)
        | .error => .error
        | .incomplete n => .incomplete n := by
  intro fuel
  induction fuel with
  | zero => intro input acc; simp [manyLoop]
  | succ fu ih =>
    intro input acc
    by_cases he : input.isEmpty
    · simp [manyLoop, he]
    · simp only [manyLoop, he, if_false]
      cases hf : f input with
      | error => simp
      | incomplete n => simp
      | done i o =>
        by_cases hp : i.length < input.length
        · simp only [hp, if_true]
          rw [ih i (o :: acc), ih i [o]]
          cases manyLoop f fu i [] with
          | done r l => simp
          | error => simp
          | incomplete n => simp
        · simp [hp]

theorem many0_error {α : Type} (f : NomParser α) (input : List Char)
    (hf : f input = .error) : many0 f input = .done input [] := by
  unfold many0
  cases input with
  | nil => rfl
  | cons c t =>
    simp only [manyLoop]
    simp [hf]

theorem many0_incomplete {α : Type} (f : NomParser α) (input : List Char) (n : Needed)
    (hf : f input = .incomplete n) (hne : input ≠ []) : many0 f input = .incomplete n := by
  unfold many0
  obtain ⟨c, t, rfl⟩ : ∃ c t, input = c :: t := by
    cases input
    · exact absurd rfl hne
    · exact ⟨_, _, rfl⟩
  simp only [manyLoop]
  simp [hf]

theorem manyLoop_fuel {α : Type} (f : NomParser α) :
    ∀ (fuel : Nat) (input : List Char) (acc : List α),
      input.length + 1 ≤ fuel →
      manyLoop f fuel input acc = manyLoop f (input.length + 1) input acc := by
  intro fuel
  induction fuel using Nat.strong_induction_on with
  | _ fuel ih =>
    intro input acc h
    obtain ⟨fu, rfl⟩ : ∃ fu, fuel = fu + 1 := ⟨fuel - 1, by omega⟩
    by_cases he : input.isEmpty
    · simp [manyLoop, he]
    · simp only [manyLoop, he, if_false]
      cases hf : f input with
      | error => rfl
      | incomplete n => rfl
      | done i o =>
        by_cases hp : i.length < input.length
        · simp only [hp, if_true]
          rw [ih fu (by omega) i (o :: acc) (by omega),
              ih input.length (by omega) i (o :: acc) (by omega)]
        · simp [hp]

theorem many0_cons {α : Type} (f : NomParser α) (input i : List Char) (o : α)
    (hf : f input = .done i o) (hp : i.length < input.length) :
    many0 f input =
      match many0 f i with
      | .done r l => .done r (o :: l)
      | .error => .error
      | .incomplete n => .incomplete n := by
  have hne : input.isEmpty = false := by
    cases input
    · simp at hp
    · rfl
  have e1 : many0 f input = manyLoop f input.length i [o] := by
    show manyLoop f (input.length + 1) input [] = _
    simp only [manyLoop, hne, if_false, hf, hp, if_true, Bool.false_eq_true]
  have e3 : many0 f i = manyLoop f (i.length + 1) i [] := rfl
  rw [e1, manyLoop_fuel f input.length i [o] (by omega), manyLoop_acc f (i.length + 1) i [o], e3]
  cases manyLoop f (i.length + 1) i [] with
  | done r l => simp
  | error => simp
  | incomplete n => simp

/-- The keywords handled by a dedicated arm of transmogrify's dispatch. -/
def recognized_keywords : List String :=
  ["platform", "identity-ed25519", "master-key-ed25519", "protocols", "fingerprint",
   "published", "extra-info-digest", "onion-key", "signing-key", "contact",
   "ntor-onion-key", "router-sig-ed25519", "router-signature", "router", "bandwidth",
   "uptime", "hidden-service-dir", "accept", "reject"]

/-- The rule the accept/reject arm derives from the keyword. -/
def rule_of_key (k : String) : Rule :=
  if k = "accept" then Rule.Accept else Rule.Reject

/-- The exit pattern one Item contributes to the policy: an accept/reject
Item whose argument text parses via the exit-pattern grammar contributes
its pattern, every other Item contributes nothing. -/
def exit_pattern_of_item (it : Item) : Option ExitPattern :=
  if it.key = "accept" ∨ it.key = "reject" then
    match it.args with
    | some args =>
      match parse_exit_pattern args.data with
      | .done _ ap => some (ExitPattern.mk (rule_of_key it.key) ap.1 ap.2)
      | _ => none
    | none => none
  else none

theorem singleton_arg_policy (sd : ServerDescriptor) (it : Item)
    (set : ServerDescriptor → String → ServerDescriptor)
    (h : ∀ s v, (set s v).exit_policy = s.exit_policy) :
    (singleton_arg sd it set).exit_policy = sd.exit_policy := by
  unfold singleton_arg
  split
  · apply h
  · rfl

theorem first_obj_policy (sd : ServerDescriptor) (it : Item)
    (set : ServerDescriptor → String → ServerDescriptor)
    (h : ∀ s v, (set s v).exit_policy = s.exit_policy) :
    (first_obj sd it set).exit_policy = sd.exit_policy := by
  unfold first_obj
  split
  · apply h
  · rfl

theorem use_parser_policy {α : Type} (sd : ServerDescriptor) (it : Item)
    (p : NomParser α) (handler : ServerDescriptor → α → ServerDescriptor)
    (h : ∀ s r, (handler s r).exit_policy = s.exit_policy) :
    (use_parser_arm sd it p handler).exit_policy = sd.exit_policy := by
  unfold use_parser_arm
  split
  · split
    · apply h
    · rfl
  · rfl

theorem transmogrify_step_policy (sd : ServerDescriptor) (it : Item) :
    (transmogrify_step sd it).exit_policy =
      sd.exit_policy ++ (exit_pattern_of_item it).toList := by
  unfold transmogrify_step exit_pattern_of_item
  by_cases ha : it.key = "accept"
  · simp only [ha, String.reduceEq, reduceIte, true_or, or_false, false_or]
    unfold use_parser_arm rule_of_key
    cases it.args with
    | none => simp
    | some args =>
      simp only [String.reduceEq, reduceIte]
      cases parse_exit_pattern args.data with
      | done r ap => simp
      | error => simp
      | incomplete n => simp
  · by_cases hr : it.key = "reject"
    · simp only [hr, String.reduceEq, reduceIte, false_or, or_true, true_or]
      unfold use_parser_arm rule_of_key
      cases it.args with
      | none => simp
      | some args =>
        simp only [String.reduceEq, reduceIte]
        cases parse_exit_pattern args.data with
        | done r ap => simp
        | error => simp
        | incomplete n => simp
    · rw [if_neg (show ¬(it.key = "accept" ∨ it.key = "reject") from by tauto)]
      rw [show (Option.toList (none : Option ExitPattern)) = [] from rfl, List.append_nil]
      by_cases h1 : it.key = "platform"
      · rw [if_pos h1]
        exact singleton_arg_policy sd it _ (fun s v => rfl)
      rw [if_neg h1]
      by_cases h2 : it.key = "identity-ed25519"
      · rw [if_pos h2]
        exact first_obj_policy sd it _ (fun s v => rfl)
      rw [if_neg h2]
      by_cases h3 : it.key = "master-key-ed25519"
      · rw [if_pos h3]
        exact singleton_arg_policy sd it _ (fun s v => rfl)
      rw [if_neg h3]
      by_cases h4 : it.key = "protocols"
      · rw [if_pos h4]
        exact singleton_arg_policy sd it _ (fun s v => rfl)
      rw [if_neg h4]
      by_cases h5 : it.key = "fingerprint"
      · rw [if_pos h5]
        exact singleton_arg_policy sd it _ (fun s v => rfl)
      rw [if_neg h5]
      by_cases h6 : it.key = "published"
      · rw [if_pos h6]
        exact singleton_arg_policy sd it _ (fun s v => rfl)
      rw [if_neg h6]
      by_cases h7 : it.key = "extra-info-digest"
      · rw [if_pos h7]
        exact singleton_arg_policy sd it _ (fun s v => rfl)
      rw [if_neg h7]
      by_cases h8 : it.key = "onion-key"
      · rw [if_pos h8]
        exact first_obj_policy sd it _ (fun s v => rfl)
      rw [if_neg h8]
      by_cases h9 : it.key = "signing-key"
      · rw [if_pos h9]
        exact first_obj_policy sd it _ (fun s v => rfl)
      rw [if_neg h9]
      by_cases h10 : it.key = "contact"
      · rw [if_pos h10]
        exact singleton_arg_policy sd it _ (fun s v => rfl)
      rw [if_neg h10]
      by_cases h11 : it.key = "ntor-onion-key"
      · rw [if_pos h11]
        exact singleton_arg_policy sd it _ (fun s v => rfl)
      rw [if_neg h11]
      by_cases h12 : it.key = "router-sig-ed25519"
      · rw [if_pos h12]
        exact singleton_arg_policy sd it _ (fun s v => rfl)
      rw [if_neg h12]
      by_cases h13 : it.key = "router-signature"
      · rw [if_pos h13]
        exact first_obj_policy sd it _ (fun s v => rfl)
      rw [if_neg h13]
      by_cases h14 : it.key = "router"
      · rw [if_pos h14]
        apply use_parser_policy
        intro s v
        obtain ⟨a1, b1, c1, d1, e1⟩ := v
        rfl
      rw [if_neg h14]
      by_cases h15 : it.key = "bandwidth"
      · rw [if_pos h15]
        apply use_parser_policy
        intro s v
        obtain ⟨a1, b1, c1⟩ := v
        rfl
      rw [if_neg h15]
      by_cases h16 : it.key = "uptime"
      · rw [if_pos h16]
        exact use_parser_policy sd it _ _ (fun s v => rfl)
      rw [if_neg h16]
      by_cases h17 : it.key = "hidden-service-dir"
      · rw [if_pos h17]
        try rfl
      rw [if_neg h17]
      rw [if_neg ha, if_neg hr]
      try rfl

theorem singleton_arg_sub (sd : ServerDescriptor) (it : Item)
    (set : ServerDescriptor → String → ServerDescriptor)
    (h : ∀ s v, (set s v).unprocessed_items = s.unprocessed_items) :
    sd.unprocessed_items.Sublist (singleton_arg sd it set).unprocessed_items := by
  unfold singleton_arg
  split
  · rw [h]
  · exact List.sublist_append_left _ _

theorem first_obj_sub (sd : ServerDescriptor) (it : Item)
    (set : ServerDescriptor → String → ServerDescriptor)
    (h : ∀ s v, (set s v).unprocessed_items = s.unprocessed_items) :
    sd.unprocessed_items.Sublist (first_obj sd it set).unprocessed_items := by
  unfold first_obj
  split
  · rw [h]
  · exact List.sublist_append_left _ _

theorem use_parser_sub {α : Type} (sd : ServerDescriptor) (it : Item)
    (p : NomParser α) (handler : ServerDescriptor → α → ServerDescriptor)
    (h : ∀ s r, (handler s r).unprocessed_items = s.unprocessed_items) :
    sd.unprocessed_items.Sublist (use_parser_arm sd it p handler).unprocessed_items := by
  unfold use_parser_arm
  split
  · split
    all_goals first
      | (rw [h])
      | (exact List.sublist_append_left _ _)
  · exact List.sublist_append_left _ _

theorem singleton_arg_onion (sd : ServerDescriptor) (it : Item)
    (set : ServerDescriptor → String → ServerDescriptor)
    (h : ∀ s v, (set s v).onion_key = s.onion_key) :
    (singleton_arg sd it set).onion_key = sd.onion_key := by
  unfold singleton_arg
  split
  · apply h
  · rfl

theorem first_obj_onion_other (sd : ServerDescriptor) (it : Item)
    (set : ServerDescriptor → String → ServerDescriptor)
    (h : ∀ s v, (set s v).onion_key = s.onion_key) :
    (first_obj sd it set).onion_key = sd.onion_key := by
  unfold first_obj
  split
  · apply h
  · rfl

theorem first_obj_onion_bad (sd : ServerDescriptor) (it : Item)
    (set : ServerDescriptor → String → ServerDescriptor)
    (hbad : ¬(it.args = none ∧ it.objs.length = 1)) :
    (first_obj sd it set).onion_key = sd.onion_key := by
  unfold first_obj
  split
  · exfalso
    apply hbad
    constructor
    · assumption
    · simp [*]
  · rfl

theorem use_parser_onion {α : Type} (sd : ServerDescriptor) (it : Item)
    (p : NomParser α) (handler : ServerDescriptor → α → ServerDescriptor)
    (h : ∀ s r, (handler s r).onion_key = s.onion_key) :
    (use_parser_arm sd it p handler).onion_key = sd.onion_key := by
  unfold use_parser_arm
  split
  · split
    all_goals first
      | (apply h)
      | rfl
  · rfl

theorem transmogrify_step_sub (sd : ServerDescriptor) (it : Item) :
    sd.unprocessed_items.Sublist (transmogrify_step sd it).unprocessed_items := by
  unfold transmogrify_step
  by_cases h1 : it.key = "platform"
  · rw [if_pos h1]
    exact singleton_arg_sub sd it _ (fun s v => rfl)
  rw [if_neg h1]
  by_cases h2 : it.key = "identity-ed25519"
  · rw [if_pos h2]
    exact first_obj_sub sd it _ (fun s v => rfl)
  rw [if_neg h2]
  by_cases h3 : it.key = "master-key-ed25519"
  · rw [if_pos h3]
    exact singleton_arg_sub sd it _ (fun s v => rfl)
  rw [if_neg h3]
  by_cases h4 : it.key = "protocols"
  · rw [if_pos h4]
    exact singleton_arg_sub sd it _ (fun s v => rfl)
  rw [if_neg h4]
  by_cases h5 : it.key = "fingerprint"
  · rw [if_pos h5]
    exact singleton_arg_sub sd it _ (fun s v => rfl)
  rw [if_neg h5]
  by_cases h6 : it.key = "published"
  · rw [if_pos h6]
    exact singleton_arg_sub sd it _ (fun s v => rfl)
  rw [if_neg h6]
  by_cases h7 : it.key = "extra-info-digest"
  · rw [if_pos h7]
    exact singleton_arg_sub sd it _ (fun s v => rfl)
  rw [if_neg h7]
  by_cases h8 : it.key = "onion-key"
  · rw [if_pos h8]
    exact first_obj_sub sd it _ (fun s v => rfl)
  rw [if_neg h8]
  by_cases h9 : it.key = "signing-key"
  · rw [if_pos h9]
    exact first_obj_sub sd it _ (fun s v => rfl)
  rw [if_neg h9]
  by_cases h10 : it.key = "contact"
  · rw [if_pos h10]
    exact singleton_arg_sub sd it _ (fun s v => rfl)
  rw [if_neg h10]
  by_cases h11 : it.key = "ntor-onion-key"
  · rw [if_pos h11]
    exact singleton_arg_sub sd it _ (fun s v => rfl)
  rw [if_neg h11]
  by_cases h12 : it.key = "router-sig-ed25519"
  · rw [if_pos h12]
    exact singleton_arg_sub sd it _ (fun s v => rfl)
  rw [if_neg h12]
  by_cases h13 : it.key = "router-signature"
  · rw [if_pos h13]
    exact first_obj_sub sd it _ (fun s v => rfl)
  rw [if_neg h13]
  by_cases h14 : it.key = "router"
  · rw [if_pos h14]
    apply use_parser_sub
    intro s v
    obtain ⟨a1, b1, c1, d1, e1⟩ := v
    rfl
  rw [if_neg h14]
  by_cases h15 : it.key = "bandwidth"
  · rw [if_pos h15]
    apply use_parser_sub
    intro s v
    obtain ⟨a1, b1, c1⟩ := v
    rfl
  rw [if_neg h15]
  by_cases h16 : it.key = "uptime"
  · rw [if_pos h16]
    exact use_parser_sub sd it _ _ (fun s v => rfl)
  rw [if_neg h16]
  by_cases h17 : it.key = "hidden-service-dir"
  · rw [if_pos h17]
    try exact List.Sublist.refl _
  rw [if_neg h17]
  by_cases h18 : it.key = "accept"
  · rw [if_pos h18]
    exact use_parser_sub sd it _ _ (fun s v => rfl)
  rw [if_neg h18]
  by_cases h19 : it.key = "reject"
  · rw [if_pos h19]
    exact use_parser_sub sd it _ _ (fun s v => rfl)
  rw [if_neg h19]
  exact List.sublist_append_left _ _

theorem transmogrify_step_onion (sd : ServerDescriptor) (it : Item)
    (h : it.key = "onion-key" → ¬(it.args = none ∧ it.objs.length = 1)) :
    (transmogrify_step sd it).onion_key = sd.onion_key := by
  unfold transmogrify_step
  by_cases h1 : it.key = "platform"
  · rw [if_pos h1]
    exact singleton_arg_onion sd it _ (fun s v => rfl)
  rw [if_neg h1]
  by_cases h2 : it.key = "identity-ed25519"
  · rw [if_pos h2]
    exact first_obj_onion_other sd it _ (fun s v => rfl)
  rw [if_neg h2]
  by_cases h3 : it.key = "master-key-ed25519"
  · rw [if_pos h3]
    exact singleton_arg_onion sd it _ (fun s v => rfl)
  rw [if_neg h3]
  by_cases h4 : it.key = "protocols"
  · rw [if_pos h4]
    exact singleton_arg_onion sd it _ (fun s v => rfl)
  rw [if_neg h4]
  by_cases h5 : it.key = "fingerprint"
  · rw [if_pos h5]
    exact singleton_arg_onion sd it _ (fun s v => rfl)
  rw [if_neg h5]
  by_cases h6 : it.key = "published"
  · rw [if_pos h6]
    exact singleton_arg_onion sd it _ (fun s v => rfl)
  rw [if_neg h6]
  by_cases h7 : it.key = "extra-info-digest"
  · rw [if_pos h7]
    exact singleton_arg_onion sd it _ (fun s v => rfl)
  rw [if_neg h7]
  by_cases h8 : it.key = "onion-key"
  · rw [if_pos h8]
    exact first_obj_onion_bad sd it _ (h h8)
  rw [if_neg h8]
  by_cases h9 : it.key = "signing-key"
  · rw [if_pos h9]
    exact first_obj_onion_other sd it _ (fun s v => rfl)
  rw [if_neg h9]
  by_cases h10 : it.key = "contact"
  · rw [if_pos h10]
    exact singleton_arg_onion sd it _ (fun s v => rfl)
  rw [if_neg h10]
  by_cases h11 : it.key = "ntor-onion-key"
  · rw [if_pos h11]
    exact singleton_arg_onion sd it _ (fun s v => rfl)
  rw [if_neg h11]
  by_cases h12 : it.key = "router-sig-ed25519"
  · rw [if_pos h12]
    exact singleton_arg_onion sd it _ (fun s v => rfl)
  rw [if_neg h12]
  by_cases h13 : it.key = "router-signature"
  · rw [if_pos h13]
    exact first_obj_onion_other sd it _ (fun s v => rfl)
  rw [if_neg h13]
  by_cases h14 : it.key = "router"
  · rw [if_pos h14]
    apply use_parser_onion
    intro s v
    obtain ⟨a1, b1, c1, d1, e1⟩ := v
    rfl
  rw [if_neg h14]
  by_cases h15 : it.key = "bandwidth"
  · rw [if_pos h15]
    apply use_parser_onion
    intro s v
    obtain ⟨a1, b1, c1⟩ := v
    rfl
  rw [if_neg h15]
  by_cases h16 : it.key = "uptime"
  · rw [if_pos h16]
    exact use_parser_onion sd it _ _ (fun s v => rfl)
  rw [if_neg h16]
  by_cases h17 : it.key = "hidden-service-dir"
  · rw [if_pos h17]
    try rfl
  rw [if_neg h17]
  by_cases h18 : it.key = "accept"
  · rw [if_pos h18]
    exact use_parser_onion sd it _ _ (fun s v => rfl)
  rw [if_neg h18]
  by_cases h19 : it.key = "reject"
  · rw [if_pos h19]
    exact use_parser_onion sd it _ _ (fun s v => rfl)
  rw [if_neg h19]
  try rfl

theorem transmogrify_step_push_onion (sd : ServerDescriptor) (it : Item)
    (hk : it.key = "onion-key") (hbad : ¬(it.args = none ∧ it.objs.length = 1)) :
    transmogrify_step sd it = { sd with unprocessed_items := sd.unprocessed_items ++ [it] } := by
  unfold transmogrify_step
  rw [if_neg (show ¬it.key = "platform" by rw [hk]; decide),
      if_neg (show ¬it.key = "identity-ed25519" by rw [hk]; decide),
      if_neg (show ¬it.key = "master-key-ed25519" by rw [hk]; decide),
      if_neg (show ¬it.key = "protocols" by rw [hk]; decide),
      if_neg (show ¬it.key = "fingerprint" by rw [hk]; decide),
      if_neg (show ¬it.key = "published" by rw [hk]; decide),
      if_neg (show ¬it.key = "extra-info-digest" by rw [hk]; decide),
      if_pos hk]
  unfold first_obj
  split
  · exfalso
    apply hbad
    constructor
    · assumption
    · simp [*]
  · rfl

theorem foldl_step_policy (items : List Item) :
    ∀ sd : ServerDescriptor,
      (items.foldl transmogrify_step sd).exit_policy =
        sd.exit_policy ++ items.filterMap exit_pattern_of_item := by
  induction items with
  | nil => intro sd; simp
  | cons it its ih =>
    intro sd
    rw [List.foldl_cons, ih, transmogrify_step_policy]
    cases hp : exit_pattern_of_item it with
    | none => simp [List.filterMap_cons, hp]
    | some pat => simp [List.filterMap_cons, hp]

theorem foldl_step_sub (items : List Item) :
    ∀ sd : ServerDescriptor,
      sd.unprocessed_items.Sublist ((items.foldl transmogrify_step sd).unprocessed_items) := by
  induction items with
  | nil => intro sd; exact List.Sublist.refl _
  | cons it its ih =>
    intro sd
    rw [List.foldl_cons]
    exact (transmogrify_step_sub sd it).trans (ih _)

theorem foldl_step_onion (items : List Item) :
    ∀ sd : ServerDescriptor,
      (∀ it ∈ items, it.key = "onion-key" → ¬(it.args = none ∧ it.objs.length = 1)) →
      (items.foldl transmogrify_step sd).onion_key = sd.onion_key := by
  induction items with
  | nil => intro sd _; rfl
  | cons it its ih =>
    intro sd h
    rw [List.foldl_cons, ih _ (fun x hx => h x (by simp [hx])),
        transmogrify_step_onion sd it (h it (by simp))]

/- ===== claims ===== -/

/-- Sample descriptor exercising exit-policy ordering: a reject line
followed by an accept line. -/
def c4desc : String := "@type server-descriptor 1.0\nreject 1.2.3.4:*\naccept *:22\nrouter-signature\n-----BEGIN SIGNATURE-----\nAAAA\n-----END SIGNATURE-----\n"

set_option maxRecDepth 8192 in
/-- C4: the dispatcher appends successfully parsed accept/reject patterns in
bucket iteration order, so the resulting policy equals the document order
of the contributing items (no reordering, no deduplication) — the policy
is exactly the in-order filterMap of the bucket; in particular a
descriptor with `reject 1.2.3.4:*` before `accept *:22` yields the reject
entry strictly before the accept entry. -/
theorem C4_exit_policy_order :
    (∀ bucket : List Item,
        (transmogrify bucket).exit_policy = bucket.filterMap exit_pattern_of_item)
    ∧ (parse (c4desc)).toOption.map ServerDescriptor.exit_policy =
        some [ExitPattern.mk Rule.Reject
                (AddrSpec.Ipv4 (Ipv4Spec.Addr (Ipv4Addr.mk 1 2 3 4))) PortSpec.Wildcard,
              ExitPattern.mk Rule.Accept AddrSpec.Wildcard (PortSpec.Port 22)] := by
  constructor
  · intro bucket
    unfold transmogrify
    rw [foldl_step_policy]
    rfl
  · rfl

/-- C5: an Item whose keyword is outside the recognized set is pushed
verbatim onto unprocessed_items and nothing else in the record changes;
the dispatcher is a total function, so transmogrification always runs to
completion without a hard error. -/
theorem C5_unrecognized_pushed (sd : ServerDescriptor) (it : Item)
    (h : ¬(it.key ∈ recognized_keywords)) :
    transmogrify_step sd it = { sd with unprocessed_items := sd.unprocessed_items ++ [it] } := by
  simp only [recognized_keywords, List.mem_cons, List.not_mem_nil, or_false] at h
  push_neg at h
  obtain ⟨n1, n2, n3, n4, n5, n6, n7, n8, n9, n10, n11, n12,
          n13, n14, n15, n16, n17, n18, n19⟩ := h
  unfold transmogrify_step
  rw [if_neg n1, if_neg n2, if_neg n3, if_neg n4, if_neg n5, if_neg n6, if_neg n7, if_neg n8,
      if_neg n9, if_neg n10, if_neg n11, if_neg n12, if_neg n13, if_neg n14, if_neg n15,
      if_neg n16, if_neg n17, if_neg n18, if_neg n19]

theorem C5_witness :
    ¬(("x-foo" : String) ∈ recognized_keywords) ∧
    transmogrify_step ServerDescriptor.default (Item.mk "x-foo" (some "bar") []) =
      { ServerDescriptor.default with
          unprocessed_items := [Item.mk "x-foo" (some "bar") []] } :=
  ⟨by decide, C5_unrecognized_pushed ServerDescriptor.default (Item.mk "x-foo" (some "bar") []) (by decide)⟩

/-- C8: if every onion-key Item of a bucket has a shape other than exactly
one object and no arguments, each such Item is pushed to
unprocessed_items and the resulting descriptor's onion_key stays absent. -/
theorem C8_onion_key_bad_shape :
    ∀ bucket : List Item,
      (∀ it ∈ bucket, it.key = "onion-key" → ¬(it.args = none ∧ it.objs.length = 1)) →
      (transmogrify bucket).onion_key = none ∧
      ∀ it ∈ bucket, it.key = "onion-key" → it ∈ (transmogrify bucket).unprocessed_items := by
  intro bucket h
  constructor
  · unfold transmogrify
    rw [foldl_step_onion bucket ServerDescriptor.default h]
    rfl
  · intro it hit hk
    obtain ⟨l1, l2, rfl⟩ := List.append_of_mem hit
    unfold transmogrify
    rw [List.foldl_append, List.foldl_cons]
    have hbad := h it (by simp) hk
    rw [transmogrify_step_push_onion _ it hk hbad]
    exact (foldl_step_sub l2 _).mem (by simp)

/-- An onion-key Item carrying stray arguments in addition to its object. -/
def c8item : Item :=
  Item.mk "onion-key" (some "stray") ["-----BEGIN X-----\nA\n-----END X-----\n"]

theorem C8_witness :
    (transmogrify [c8item]).onion_key = none ∧
    c8item ∈ (transmogrify [c8item]).unprocessed_items :=
  ⟨(C8_onion_key_bad_shape [c8item] (by decide)).1,
   (C8_onion_key_bad_shape [c8item] (by decide)).2 c8item (by simp) rfl⟩

/-- C2: contrary to the stated requirement, out-of-range CIDR prefixes are
accepted: the exit-pattern parser maps "1.2.3.4/33:*" to an IPv4 CIDR with
prefix 33 and "[2001:0db8:85a3:0000:0000:8a2e:0370:7334]/129:*" to an IPv6
CIDR with prefix 129 — ipv4_numbits/ipv6_numbits are bare u8_digit calls
(the source carries TODOs for the missing 0..32 / 0..128 range checks), so
any 8-bit prefix value parses successfully instead of being rejected. -/
theorem C2_out_of_range_prefix_accepted :
    exit_pattern (strL ("1.2.3.4/33:*")) =
      .done [] (AddrSpec.Ipv4 (Ipv4Spec.CIDR (Ipv4Addr.mk 1 2 3 4) 33), PortSpec.Wildcard)
    ∧ exit_pattern (strL ("[2001:0db8:85a3:0000:0000:8a2e:0370:7334]/129:*")) =
      .done [] (AddrSpec.Ipv6 (Ipv6Spec.CIDR
          (Ipv6Addr.mk 0x2001 0x0db8 0x85a3 0x0000 0x0000 0x8a2e 0x0370 0x7334) 129),
        PortSpec.Wildcard) :=
  ⟨rfl, rfl⟩

/-- C3: contrary to the stated invariant, an armored block whose END type
token differs from its BEGIN type token is accepted as an Item's object:
object_endline parses its own type token and the implementation never
compares it with the begin line's token (document.rs's own header comment
says the two keywords must be the same). -/
theorem C3_mismatched_armor_accepted :
    item (strL ("x\n-----BEGIN AAA-----\nZZZZ\n-----END BBB-----\n")) =
      .done [] (Item.mk "x" none ["-----BEGIN AAA-----\nZZZZ\n-----END BBB-----\n"]) :=
  rfl

/-- C6: the exit-pattern parser maps "0.0.0.0/8:*" to IPv4 CIDR(0.0.0.0, 8)
with wildcard port (CIDR tried before bare address), "*:6660-6697" to a
wildcard address with the half-open range 6660..6697 (exclusive upper
bound, range tried before single port), "*:*" to wildcard/wildcard, and
the bracketed IPv6 example to the bare-address spec with exactly those
eight 16-bit groups and a wildcard port. -/
theorem C6_exit_pattern_examples :
    exit_pattern (strL ("0.0.0.0/8:*")) =
      .done [] (AddrSpec.Ipv4 (Ipv4Spec.CIDR (Ipv4Addr.mk 0 0 0 0) 8), PortSpec.Wildcard)
    ∧ exit_pattern (strL ("*:6660-6697")) =
      .done [] (AddrSpec.Wildcard, PortSpec.Range 6660 6697)
    ∧ exit_pattern (strL ("*:*")) =
      .done [] (AddrSpec.Wildcard, PortSpec.Wildcard)
    ∧ exit_pattern (strL ("[2001:0db8:85a3:0000:0000:8a2e:0370:7334]:*")) =
      .done [] (AddrSpec.Ipv6 (Ipv6Spec.Addr
          (Ipv6Addr.mk 0x2001 0x0db8 0x85a3 0x0000 0x0000 0x8a2e 0x0370 0x7334)),
        PortSpec.Wildcard) :=
  ⟨rfl, rfl, rfl, rfl⟩

/-- A well-formed single-block sample whose last Item carries an object, so
the block parses to completion at end of input. -/
def c1good : String := "@type server-descriptor 1.0\nrouter-signature\n-----BEGIN SIGNATURE-----\nAAAA\n-----END SIGNATURE-----\n"

/-- A block that fails to parse: the framing line is followed by no
well-formed Item ('@' is not a keyword character). -/
def c1bad : String := "@type server-descriptor 1.0\n@@@\n"

/-- The Item bucket of c1good. -/
def c1items : List Item :=
  [Item.mk "router-signature" none ["-----BEGIN SIGNATURE-----\nAAAA\n-----END SIGNATURE-----\n"]]

set_option maxRecDepth 16384 in
/-- C1 counterexample: a buffer holding a failing block followed by a
well-formed block (N = 2, M = 1) yields zero records from parse_all, not
the claimed N − M = 1: the aggregator stops at the first failing block and
drops everything after it, so the position of the failing block matters. -/
theorem C1_counterexample :
    parse_all (c1bad ++ c1good) = [] ∧ (parse_all (c1good)).length = 1 :=
  ⟨rfl, rfl⟩

/-- C1 (amended): parse_all never surfaces an error, and aggregation is a
greedy front-to-back fold: while the remainder still aggregates
successfully, each leading well-formed block contributes its transmogrified
record in order; a buffer whose first block fails with a hard grammar
mismatch yields nothing for the whole buffer, and a buffer whose first
block fails as incomplete likewise yields nothing. -/
theorem C1_parse_all_greedy_prefix :
    (∀ input i items, server_descriptor_bucket input = .done i items →
        i.length < input.length →
        (server_descriptor_bucket_aggregator i).isDone = true →
        parse_all (String.mk input) = transmogrify items :: parse_all (String.mk i))
    ∧ (∀ input, server_descriptor_bucket input = .error → parse_all (String.mk input) = [])
    ∧ (∀ input n, server_descriptor_bucket input = .incomplete n →
        parse_all (String.mk input) = []) := by
  refine ⟨?_, ?_, ?_⟩
  · intro input i items hb hlen hagg
    unfold parse_all extract_all_item_buckets server_descriptor_bucket_aggregator
    rw [show (String.mk input).data = input from rfl, show (String.mk i).data = i from rfl]
    rw [many0_cons server_descriptor_bucket input i items hb hlen]
    unfold server_descriptor_bucket_aggregator at hagg
    cases hm : many0 server_descriptor_bucket i with
    | done r l => simp
    | error => rw [hm] at hagg; cases hagg
    | incomplete n => rw [hm] at hagg; cases hagg
  · intro input hb
    unfold parse_all extract_all_item_buckets server_descriptor_bucket_aggregator
    rw [show (String.mk input).data = input from rfl]
    rw [many0_error server_descriptor_bucket input hb]
    rfl
  · intro input n hb
    unfold parse_all extract_all_item_buckets server_descriptor_bucket_aggregator
    rw [show (String.mk input).data = input from rfl]
    cases input with
    | nil => rfl
    | cons c t =>
      rw [many0_incomplete server_descriptor_bucket (c :: t) n hb (by simp)]
      rfl

set_option maxRecDepth 16384 in
theorem C1_witness :
    server_descriptor_bucket (c1good ++ c1good).data = .done (c1good).data c1items ∧
    (c1good).data.length < (c1good ++ c1good).data.length ∧
    (server_descriptor_bucket_aggregator (c1good).data).isDone = true ∧
    parse_all (String.mk (c1good ++ c1good).data) =
      transmogrify c1items :: parse_all (String.mk (c1good).data) :=
  ⟨rfl, by decide, rfl,
   C1_parse_all_greedy_prefix.1 (c1good ++ c1good).data (c1good).data c1items rfl (by decide) rfl⟩

/-- C10: parse_all is total; whenever the buffer does not begin with a
well-formed descriptor block (the empty string included) it returns the
empty sequence and signals no error. -/
theorem C10_parse_all_total :
    (∀ input : List Char, (server_descriptor_bucket input).isDone = false →
        parse_all (String.mk input) = [])
    ∧ parse_all ("") = [] := by
  constructor
  · intro input h
    cases hb : server_descriptor_bucket input with
    | done r its => rw [hb] at h; simp [NomResult.isDone] at h
    | error =>
      unfold parse_all extract_all_item_buckets server_descriptor_bucket_aggregator
      rw [show (String.mk input).data = input from rfl]
      rw [many0_error server_descriptor_bucket input hb]
      rfl
    | incomplete n =>
      unfold parse_all extract_all_item_buckets server_descriptor_bucket_aggregator
      rw [show (String.mk input).data = input from rfl]
      cases input with
      | nil => rfl
      | cons c t =>
        rw [many0_incomplete server_descriptor_bucket (c :: t) n hb (by simp)]
        rfl
  · rfl

theorem C10_witness :
    (server_descriptor_bucket (strL ("no framing line here"))).isDone = false ∧
    parse_all (String.mk (strL ("no framing line here"))) = [] :=
  ⟨rfl, C10_parse_all_total.1 (strL ("no framing line here")) rfl⟩

theorem nbind_done {α β : Type} (p : NomParser α) (f : α → NomParser β)
    {i i1 : List Char} {a : α} (h : p i = .done i1 a) : nbind p f i = f a i1 := by
  unfold nbind
  rw [h]

theorem nbind_done_iff {α β : Type} (p : NomParser α) (f : α → NomParser β)
    (i r : List Char) (b : β) :
    nbind p f i = .done r b ↔ ∃ i1 a, p i = .done i1 a ∧ f a i1 = .done r b := by
  unfold nbind
  cases hp : p i with
  | done i1 a =>
    constructor
    · intro h
      exact ⟨i1, a, rfl, h⟩
    · rintro ⟨i1', a', he, hf⟩
      cases he
      exact hf
  | error =>
    constructor
    · intro h; cases h
    · rintro ⟨i1', a', he, hf⟩; cases he
  | incomplete n =>
    constructor
    · intro h; cases h
    · rintro ⟨i1', a', he, hf⟩; cases he

theorem nbind_npure {α : Type} (p : NomParser α) (i : List Char) :
    nbind p (fun a => npure a) i = p i := by
  unfold nbind npure
  cases p i <;> rfl

theorem bind_is_nbind {α β : Type} (p : NomParser α) (f : α → NomParser β) :
    p >>= f = nbind p f := rfl

theorem pure_is_npure {α : Type} (a : α) : (pure a : NomParser α) = npure a := rfl

theorem bucket_done_decomp (input r : List Char) (items : List Item) :
    server_descriptor_bucket input = .done r items ↔
      ∃ nl rest, input = strL ("@type server-descriptor 1.0") ++ nl ++ rest ∧
        (nl = strL ("\r\n") ∨ nl = strL ("\n")) ∧
        many1 item rest = .done r items := by
  have hb : server_descriptor_bucket input =
      nbind (tag (strL ("@type server-descriptor 1.0")))
        (fun _ => nbind line_ending
          (fun _ => nbind (many1 item) (fun its => npure its))) input := rfl
  rw [hb, nbind_done_iff]
  constructor
  · rintro ⟨i1, v, htag, hrest⟩
    obtain ⟨hv, hin⟩ := (tag_done_iff _ _ _ _).mp htag
    rw [nbind_done_iff] at hrest
    obtain ⟨i2, nl, hle, hmany⟩ := hrest
    obtain ⟨hnl, hi1⟩ := (line_ending_done_iff _ _ _).mp hle
    rw [nbind_npure] at hmany
    refine ⟨nl, i2, ?_, hnl, hmany⟩
    rw [hin, hi1, List.append_assoc]
  · rintro ⟨nl, rest, hin, hnl, hmany⟩
    refine ⟨nl ++ rest, strL ("@type server-descriptor 1.0"), ?_, ?_⟩
    · exact (tag_done_iff _ _ _ _).mpr ⟨rfl, by rw [hin, List.append_assoc]⟩
    · rw [nbind_done_iff]
      refine ⟨rest, nl, (line_ending_done_iff _ _ _).mpr ⟨hnl, rfl⟩, ?_⟩
      rw [nbind_npure]
      exact hmany

/-- C7: parse returns a descriptor exactly when the buffer begins with the
literal framing line "@type server-descriptor 1.0", a line terminator, and
one-or-more Items accepted by the Item grammar; otherwise it returns
ParseError 1 (Malformed) exactly on a grammar mismatch and ParseError 2
(Incomplete) exactly when the input ended mid-construct. -/
theorem C7_parse_framing :
    ∀ input : List Char,
      ((∃ sd, parse (String.mk input) = .ok sd) ↔
        ∃ nl rest i items, input = strL ("@type server-descriptor 1.0") ++ nl ++ rest ∧
          (nl = strL ("\r\n") ∨ nl = strL ("\n")) ∧ many1 item rest = .done i items)
      ∧ (parse (String.mk input) = .error 1 ↔ server_descriptor_bucket input = .error)
      ∧ (parse (String.mk input) = .error 2 ↔
          ∃ n, server_descriptor_bucket input = .incomplete n) := by
  intro input
  have hps : parse (String.mk input) =
      match server_descriptor_bucket input with
      | .done _ sd => .ok (transmogrify sd)
      | .error => .error 1
      | .incomplete _ => .error 2 := rfl
  refine ⟨?_, ?_, ?_⟩
  · constructor
    · rintro ⟨sd, hsd⟩
      rw [hps] at hsd
      cases hb : server_descriptor_bucket input with
      | done r its =>
        obtain ⟨nl, rest, h1, h2, h3⟩ := (bucket_done_decomp input r its).mp hb
        exact ⟨nl, rest, r, its, h1, h2, h3⟩
      | error => rw [hb] at hsd; cases hsd
      | incomplete n => rw [hb] at hsd; cases hsd
    · rintro ⟨nl, rest, i, items, h1, h2, h3⟩
      have hb := (bucket_done_decomp input i items).mpr ⟨nl, rest, h1, h2, h3⟩
      rw [hps, hb]
      exact ⟨transmogrify items, rfl⟩
  · rw [hps]
    cases hb : server_descriptor_bucket input <;> simp
  · rw [hps]
    cases hb : server_descriptor_bucket input <;> simp

theorem char_class_run (p : Char → Bool) (l1 : List Char) (c : Char) (l2 : List Char)
    (hne : l1 ≠ []) (h1 : ∀ x ∈ l1, p x = true) (hc : p c = false) :
    char_class p (l1 ++ c :: l2) = .done (c :: l2) l1 := by
  obtain ⟨a, l1', rfl⟩ : ∃ a t, l1 = a :: t := by
    cases l1
    · exact absurd rfl hne
    · exact ⟨_, _, rfl⟩
  have ha : p a = true := h1 a (by simp)
  have he : char_class p ((a :: l1') ++ c :: l2) =
      if p a then
        .done (((a :: l1') ++ c :: l2).dropWhile p) (((a :: l1') ++ c :: l2).takeWhile p)
      else .error := rfl
  rw [he, if_pos ha, takeWhile_all_append_cons p (a :: l1') c l2 h1 hc,
      dropWhile_all_append_cons p (a :: l1') c l2 h1 hc]

theorem char_class_error (p : Char → Bool) (c : Char) (l : List Char)
    (hc : p c = false) : char_class p (c :: l) = .error := by
  have he : char_class p (c :: l) =
      if p c then .done ((c :: l).dropWhile p) ((c :: l).takeWhile p) else .error := rfl
  rw [he, if_neg (by simp [hc])]

theorem opt_done {α : Type} (p : NomParser α) {i r : List Char} {a : α}
    (h : p i = .done r a) : opt p i = .done r (some a) := by
  unfold opt
  rw [h]

/-- The keyword-line of a recognized keyword followed only by whitespace:
for any nonempty run of alphanumeric keyword characters, any nonempty run
of spaces/tabs, and any continuation after the newline, the parsed
KeywordLine carries args = some "" (present but empty), never none. -/
theorem keyword_line_trailing_ws (kw ws rest : List Char)
    (hkne : kw ≠ []) (hkw : ∀ x ∈ kw, is_alphanumeric_char x = true)
    (hne : ws ≠ []) (hws : ∀ c ∈ ws, c = ' ' ∨ c = '\t') :
    keyword_line (kw ++ ws ++ ('\n') :: rest) =
      .done rest (KeywordLine.mk (String.mk kw) (some (""))) := by
  obtain ⟨w, ws', rfl⟩ : ∃ a t, ws = a :: t := by
    cases ws
    · exact absurd rfl hne
    · exact ⟨_, _, rfl⟩
  rw [List.append_assoc, List.cons_append]
  have hwa : is_alphanumeric_char w = false := by
    rcases hws w (by simp) with rfl | rfl <;> rfl
  have hwd : ¬(w = '-') := by
    rcases hws w (by simp) with rfl | rfl <;> decide
  have hwsp : is_space_char w = true := by
    rcases hws w (by simp) with rfl | rfl <;> rfl
  have hallsp : ∀ x ∈ w :: ws', is_space_char x = true := by
    intro x hx
    rcases hws x hx with rfl | rfl <;> rfl
  have halpha : alphanumeric (kw ++ w :: (ws' ++ ('\n') :: rest)) =
      .done (w :: (ws' ++ ('\n') :: rest)) kw :=
    char_class_run is_alphanumeric_char kw w (ws' ++ ('\n') :: rest) hkne hkw hwa
  have hkcP : keyword_char (kw ++ w :: (ws' ++ ('\n') :: rest)) =
      .done (w :: (ws' ++ ('\n') :: rest)) kw := by
    unfold keyword_char alt2
    rw [halpha]
  have hkcw : keyword_char (w :: (ws' ++ ('\n') :: rest)) = .error := by
    have h1 : alphanumeric (w :: (ws' ++ ('\n') :: rest)) = .error :=
      char_class_error is_alphanumeric_char w _ hwa
    have h2 : tag (strL ("-")) (w :: (ws' ++ ('\n') :: rest)) = .error :=
      tag_error_of_head_ne ('-') w [] _ hwd
    unfold keyword_char alt2
    rw [h1, h2]
  have hm1 : many1 keyword_char (kw ++ w :: (ws' ++ ('\n') :: rest)) =
      .done (w :: (ws' ++ ('\n') :: rest)) [kw] := by
    unfold many1
    rw [hkcP]
    simp [manyLoop, hkcw]
  have hkwP : keyword (kw ++ w :: (ws' ++ ('\n') :: rest)) =
      .done (w :: (ws' ++ ('\n') :: rest)) kw := by
    unfold keyword recognize
    rw [hm1]
    simp only []
    have hlen : (kw ++ w :: (ws' ++ ('\n') :: rest)).length -
        (w :: (ws' ++ ('\n') :: rest)).length = kw.length := by
      rw [List.length_append]
      omega
    rw [hlen, List.take_left]
  have hsp : space (w :: (ws' ++ ('\n') :: rest)) = .done (('\n') :: rest) (w :: ws') := by
    have he : w :: (ws' ++ ('\n') :: rest) = (w :: ws') ++ ('\n') :: rest := by
      rw [List.cons_append]
    rw [he]
    exact char_class_run is_space_char (w :: ws') ('\n') rest (by simp) hallsp rfl
  have hnle : not_line_ending (('\n') :: rest) = .done (('\n') :: rest) [] := rfl
  have hka : keyword_args (w :: (ws' ++ ('\n') :: rest)) = .done (('\n') :: rest) [] := by
    show nbind space (fun _ => nbind not_line_ending (fun args => npure args))
        (w :: (ws' ++ ('\n') :: rest)) = .done (('\n') :: rest) []
    rw [nbind_done _ _ hsp, nbind_done _ _ hnle]
    rfl
  have hle : line_ending (('\n') :: rest) = .done rest (strL ("\n")) := by
    have h1 : tag (strL ("\r\n")) (('\n') :: rest) = .error :=
      tag_error_of_head_ne ('\r') ('\n') (('\n') :: []) rest (by decide)
    unfold line_ending alt2
    rw [h1]
    exact (tag_done_iff _ _ _ _).mpr ⟨rfl, rfl⟩
  show nbind keyword (fun key => nbind (opt keyword_args)
      (fun args => nbind line_ending
        (fun _ => npure (KeywordLine.mk (String.mk key) (args.map String.mk)))))
      (kw ++ w :: (ws' ++ ('\n') :: rest)) = _
  rw [nbind_done _ _ hkwP, nbind_done _ _ (opt_done keyword_args hka), nbind_done _ _ hle]
  rfl

/-- A full descriptor whose platform line is "platform " followed directly
by the newline. -/
def c9desc : String := "@type server-descriptor 1.0\nplatform \nrouter-signature\n-----BEGIN SIGNATURE-----\nAAAA\n-----END SIGNATURE-----\n"

set_option maxRecDepth 16384 in
/-- C9: a keyword line whose keyword is followed by one-or-more spaces/tabs
and then directly a line terminator yields arguments present-but-empty
(some ""), not absent: keyword_args consumes the whitespace and matches
the empty argument run, shown here for any alphanumeric keyword, any
nonempty space/tab run and any continuation; consequently the dispatcher
stores the empty string, e.g. a descriptor whose platform line is
"platform " followed by a newline ends up with platform = some "". -/
theorem C9_empty_args_present (ws rest : List Char)
    (hne : ws ≠ []) (hws : ∀ c ∈ ws, c = ' ' ∨ c = '\t') :
    keyword_line (strL ("platform") ++ ws ++ ('\n') :: rest) =
      .done rest (KeywordLine.mk ("platform") (some ("")))
    ∧ (transmogrify [Item.mk ("platform") (some ("")) []]).platform = some ("")
    ∧ (parse (c9desc)).toOption.map ServerDescriptor.platform = some (some ("")) := by
  refine ⟨?_, rfl, rfl⟩
  exact keyword_line_trailing_ws (strL ("platform")) ws rest (by decide) (by decide) hne hws

set_option maxRecDepth 16384 in
theorem C9_witness :
    keyword_line (strL ("platform") ++ [' '] ++ ('\n') :: []) =
      .done [] (KeywordLine.mk ("platform") (some ("")))
    ∧ (parse (c9desc)).toOption.map ServerDescriptor.platform = some (some ("")) :=
  ⟨(C9_empty_args_present [' '] [] (by decide) (by decide)).1,
   (C9_empty_args_present [' '] [] (by decide) (by decide)).2.2⟩

end Tordesc
